import Mathlib

/-!
Verification model of the in-memory retrieval subsystem ("VectorStore") of
`src/examples/advanced/01-rag-system.js`: the sentence chunker
(`splitIntoChunks`), cosine similarity (`cosineSimilarity`), top-K search
(`search`), document ingestion (`addDocument`) and statistics (`getStats`).

Strings are modelled as `List Char` (all inputs of interest are ASCII, where
one JavaScript UTF-16 code unit corresponds to one `Char`).  JavaScript
numbers are modelled as exact real numbers extended with NaN and the two
infinities (`JsNum`); this idealizes away rounding, which none of the
verified properties depend on, but keeps the IEEE special values that the
source can produce (division by zero, arithmetic on `undefined` array reads).
Negative zero is not modelled: every zero reaching a division in this code
arises as a sum of squares or a product of non-negative square roots, which
is `+0` in JavaScript.
-/

namespace RagSystem

/-! JavaScript character classes used by the chunker.  The regex in the
source is `/[.!?]\s+/`; `\s` is modelled by the ASCII whitespace characters,
the only ones occurring in this repository's documents. -/

/-- Whitespace as matched by `\s` (restricted to ASCII). -/
def isWs (c : Char) : Bool :=
  c == ' ' || c == '\t' || c == '\n' || c == '\r'

/-- Sentence-terminal punctuation: the character class `[.!?]`. -/
def isSentenceEnd (c : Char) : Bool :=
  c == '.' || c == '!' || c == '?'

/-- JavaScript `String.prototype.trim`: strip leading and trailing
whitespace. -/
def trim (l : List Char) : List Char :=
  ((l.dropWhile isWs).reverse.dropWhile isWs).reverse

/-- Worker for `text.split(/[.!?]\s+/)`: scan left to right; a match starts
at a sentence-end character immediately followed by at least one whitespace
character.  The scanner cuts right after the punctuation; because a
whitespace run can contain no further punctuation, the maximal run consumed
by the greedy `\s+` is exactly the leading whitespace of the following
piece, which `splitSentences` strips afterwards.  `acc` holds the current
piece, reversed. -/
def splitSentencesAux : List Char → List Char → List (List Char)
  | acc, [] => [acc.reverse]
  | acc, [c] => [(c :: acc).reverse]
  | acc, c :: c2 :: rest =>
    if isSentenceEnd c && isWs c2 then
      acc.reverse :: splitSentencesAux [] (c2 :: rest)
    else
      splitSentencesAux (c :: acc) (c2 :: rest)

/-- `text.split(/[.!?]\s+/)` from line 51 of the source.  Like the
JavaScript original it can return empty pieces, and the separator
(punctuation plus the maximal following whitespace run) is consumed: every
piece after the first cut starts with the matched whitespace run, which is
removed here. -/
def splitSentences (text : List Char) : List (List Char) :=
  match splitSentencesAux [] text with
  | [] => []
  | p :: ps => p :: ps.map (List.dropWhile isWs)

/-- The sentence-accumulation loop of `splitIntoChunks` (source lines
52-66), as a recursion over the sentence list with the running chunk as
accumulator.  The length test `(currentChunk + sentence).length > maxLength`
does not count the joining space that the `else` branch inserts, exactly as
in the source. -/
def buildChunks (maxLength : ℕ) : List (List Char) → List Char → List (List Char)
  | [], currentChunk =>
    if currentChunk = [] then [] else [trim currentChunk]
  | sentence :: rest, currentChunk =>
    if maxLength < currentChunk.length + sentence.length ∧ currentChunk ≠ [] then
      trim currentChunk :: buildChunks maxLength rest sentence
    else
      buildChunks maxLength rest
        (currentChunk ++ (if currentChunk = [] then [] else [' ']) ++ sentence)

/-- `VectorStore.splitIntoChunks(text, maxLength)` (source lines 50-69). -/
def splitIntoChunks (text : List Char) (maxLength : ℕ) : List (List Char) :=
  buildChunks maxLength (splitSentences text) []

/-! The JavaScript number model: exact reals extended with NaN and the two
infinities, with IEEE-754 propagation rules for the operations the source
uses. -/

/-- A JavaScript number: NaN, +Infinity, -Infinity, or a finite value
(idealized as an exact real). -/
inductive JsNum where
  | nan : JsNum
  | posInf : JsNum
  | negInf : JsNum
  | val : ℝ → JsNum

namespace JsNum

/-- JavaScript `+` on numbers. -/
def add : JsNum → JsNum → JsNum
  | nan, _ => nan
  | _, nan => nan
  | posInf, negInf => nan
  | negInf, posInf => nan
  | posInf, _ => posInf
  | negInf, _ => negInf
  | _, posInf => posInf
  | _, negInf => negInf
  | val x, val y => val (x + y)

/-- JavaScript `-` on numbers. -/
def sub : JsNum → JsNum → JsNum
  | nan, _ => nan
  | _, nan => nan
  | posInf, posInf => nan
  | negInf, negInf => nan
  | posInf, _ => posInf
  | negInf, _ => negInf
  | val _, posInf => negInf
  | val _, negInf => posInf
  | val x, val y => val (x - y)

/-- JavaScript `*` on numbers. -/
noncomputable def mul : JsNum → JsNum → JsNum
  | nan, _ => nan
  | _, nan => nan
  | posInf, posInf => posInf
  | posInf, negInf => negInf
  | negInf, posInf => negInf
  | negInf, negInf => posInf
  | posInf, val y => if y = 0 then nan else if 0 < y then posInf else negInf
  | negInf, val y => if y = 0 then nan else if 0 < y then negInf else posInf
  | val x, posInf => if x = 0 then nan else if 0 < x then posInf else negInf
  | val x, negInf => if x = 0 then nan else if 0 < x then negInf else posInf
  | val x, val y => val (x * y)

/-- JavaScript `/` on numbers (with `+0` as the only zero; see the header
note on negative zero). -/
noncomputable def div : JsNum → JsNum → JsNum
  | nan, _ => nan
  | _, nan => nan
  | posInf, posInf => nan
  | posInf, negInf => nan
  | negInf, posInf => nan
  | negInf, negInf => nan
  | posInf, val y => if 0 ≤ y then posInf else negInf
  | negInf, val y => if 0 ≤ y then negInf else posInf
  | val _, posInf => val 0
  | val _, negInf => val 0
  | val x, val y =>
    if y = 0 then (if x = 0 then nan else if 0 < x then posInf else negInf)
    else val (x / y)

/-- JavaScript `Math.sqrt`. -/
noncomputable def sqrt : JsNum → JsNum
  | nan => nan
  | posInf => posInf
  | negInf => nan
  | val x => if x < 0 then nan else val (Real.sqrt x)

/-- JavaScript `>=` on numbers: any comparison involving NaN is false. -/
def jsGe : JsNum → JsNum → Prop
  | nan, _ => False
  | _, nan => False
  | posInf, _ => True
  | negInf, negInf => True
  | negInf, _ => False
  | val _, posInf => False
  | val _, negInf => True
  | val x, val y => y ≤ x

end JsNum

/-! Cosine similarity (source lines 87-101). -/

/-- The value read by `v[i]` when the remaining suffix of `v` from index `i`
is given: reading past the end yields `undefined`, which `ToNumber` converts
to NaN inside the arithmetic. -/
def elemNum : List ℝ → JsNum
  | [] => JsNum.nan
  | z :: _ => JsNum.val z

/-- The accumulation loop of `cosineSimilarity` (source lines 94-98): it
runs over the indices of `vec1`, reading `vec2[i]` even when `vec2` is
shorter.  Returns `(dotProduct, norm1, norm2)`. -/
noncomputable def csLoop : List ℝ → List ℝ → JsNum → JsNum → JsNum → JsNum × JsNum × JsNum
  | [], _, dotProduct, norm1, norm2 => (dotProduct, norm1, norm2)
  | x :: xs, v2, dotProduct, norm1, norm2 =>
    csLoop xs v2.tail
      (dotProduct.add ((JsNum.val x).mul (elemNum v2)))
      (norm1.add ((JsNum.val x).mul (JsNum.val x)))
      (norm2.add ((elemNum v2).mul (elemNum v2)))

/-- `VectorStore.cosineSimilarity(vec1, vec2)` (source lines 87-101).
`none` models a null/undefined (falsy) vector, caught by the
`if (!vec1 || !vec2) return 0` guard; an actual array is always truthy in
JavaScript, even when empty. -/
noncomputable def cosineSimilarity : Option (List ℝ) → Option (List ℝ) → JsNum
  | none, _ => JsNum.val 0
  | some _, none => JsNum.val 0
  | some vec1, some vec2 =>
    let r := csLoop vec1 vec2 (JsNum.val 0) (JsNum.val 0) (JsNum.val 0)
    r.1.div ((r.2.1.sqrt).mul (r.2.2.sqrt))

/-! The vector store (source lines 25-138). -/

/-- One stored record, as pushed by `addDocument` (source lines 40-45). -/
structure Passage (μ : Type) where
  id : ℕ
  text : List Char
  metadata : μ
  embedding : Option (List ℝ)

/-- The `VectorStore` state: `documents` is the record array; `embeddings`
is declared by the constructor but never used by the source. -/
structure VectorStore (μ : Type) where
  documents : List (Passage μ)
  embeddings : List (List ℝ)

/-- `new VectorStore()` (source lines 26-29). -/
def VectorStore.empty (μ : Type) : VectorStore μ := ⟨[], []⟩

/-- `VectorStore.addDocument(text, metadata)` (source lines 32-47).  The
embedding provider (`createEmbedding`, an external API call at source lines
72-84) is passed in as a function returning `none` on failure, matching the
`catch` branch that returns `null`.  Each chunk is pushed with
`id = this.documents.length` at the moment of the push, and with whatever
the provider returned - including `none`. -/
def VectorStore.addDocument (createEmbedding : List Char → Option (List ℝ))
    (st : VectorStore μ) (text : List Char) (metadata : μ) : VectorStore μ :=
  (splitIntoChunks text 500).foldl
    (fun s chunk =>
      { s with documents :=
          s.documents ++ [⟨s.documents.length, chunk, metadata, createEmbedding chunk⟩] })
    st

/-- One element of the array returned by `search` (source lines 121-125). -/
structure SearchResult (μ : Type) where
  text : List Char
  metadata : μ
  similarity : JsNum

/-- The ECMAScript `SortCompare` verdict for a comparator result: the pair
may stay in its current order when the result is negative, zero, or NaN
(the specification maps a NaN comparator result to `+0`). -/
noncomputable def sortKeep : JsNum → Bool
  | JsNum.nan => true
  | JsNum.posInf => false
  | JsNum.negInf => true
  | JsNum.val x => decide (x ≤ 0)

/-- `SortCompare` for the comparator
`(a, b) => b.similarity - a.similarity` (source line 118): `a` may stay
before `b`. -/
noncomputable def simCompareKeep (a b : Passage μ × JsNum) : Bool :=
  sortKeep (b.2.sub a.2)

/-- Stable insertion of `x` below the first already-placed element that must
come after it: `x` goes after every `y` with `le y x`. -/
def stableInsert (le : α → α → Bool) (x : α) : List α → List α
  | [] => [x]
  | y :: ys => if le y x then y :: stableInsert le x ys else x :: y :: ys

/-- A stable comparison sort (ECMAScript requires `Array.prototype.sort` to
be stable): elements are inserted left to right, each placed after all
earlier elements that may stay before it. -/
def stableSort (le : α → α → Bool) (l : List α) : List α :=
  l.foldl (fun acc x => stableInsert le x acc) []

/-- The `similarities` array of `search` after the sort (source lines
112-118): each document paired with its similarity to the query embedding,
stably sorted by the comparator. -/
noncomputable def searchRanked (st : VectorStore μ) (queryEmbedding : List ℝ) :
    List (Passage μ × JsNum) :=
  stableSort simCompareKeep
    (st.documents.map (fun doc => (doc, cosineSimilarity (some queryEmbedding) doc.embedding)))

/-- `VectorStore.search(query, topK)` (source lines 104-126): embed the
query (returning `[]` if the provider fails), rank all documents, return the
first `topK` with text, metadata and score. -/
noncomputable def VectorStore.search (createEmbedding : List Char → Option (List ℝ))
    (st : VectorStore μ) (query : List Char) (topK : ℕ) : List (SearchResult μ) :=
  match createEmbedding query with
  | none => []
  | some queryEmbedding =>
    ((searchRanked st queryEmbedding).take topK).map
      (fun p => ⟨p.1.text, p.1.metadata, p.2⟩)

/-- The object returned by `getStats` (source lines 129-137). -/
structure Stats where
  documentCount : ℕ
  totalCharacters : ℕ
  averageChunkSize : ℕ

/-- `VectorStore.getStats()` (source lines 129-137).  `Math.floor` of the
exact quotient of two naturals is natural division. -/
def VectorStore.getStats (st : VectorStore μ) : Stats :=
  { documentCount := st.documents.length
    totalCharacters := st.documents.foldl (fun sum doc => sum + doc.text.length) 0
    averageChunkSize :=
      if 0 < st.documents.length then
        (st.documents.foldl (fun sum doc => sum + doc.text.length) 0) / st.documents.length
      else 0 }

/-- The public calls that can touch one `VectorStore` instance. -/
inductive Op (μ : Type) where
  | add (text : List Char) (metadata : μ)
  | search (query : List Char) (topK : ℕ)
  | stats

/-- Effect of each public call on the store's state.  `search` and
`getStats` never assign to `this.documents`: `search` builds a fresh
`similarities` array with `map` and object spread and sorts that copy
(source lines 112-118), and `getStats` only reduces over the array, so both
leave the store unchanged. -/
def applyOp (createEmbedding : List Char → Option (List ℝ))
    (st : VectorStore μ) : Op μ → VectorStore μ
  | Op.add text metadata => st.addDocument createEmbedding text metadata
  | Op.search _ _ => st
  | Op.stats => st

/-- The id invariant of the store: the stored ids are exactly
`0, 1, ..., length - 1` in insertion order, so they are strictly
increasing, gap-free, and each equals the collection size at the moment of
its append. -/
def idsOk (st : VectorStore μ) : Prop :=
  st.documents.map Passage.id = List.range st.documents.length

/-- The strict key order realized by the stable similarity sort when every
similarity is a plain finite number: strictly larger similarity first, ties
broken by smaller (earlier-inserted) id. -/
def rankedGood (a b : Passage μ × JsNum) : Prop :=
  ∃ x y : ℝ, a.2 = JsNum.val x ∧ b.2 = JsNum.val y ∧
    (y < x ∨ (x = y ∧ a.1.id < b.1.id))

/-- A two-chunk store with stored texts of lengths 3 and 4, used to exhibit
the floor truncation in `getStats`. -/
def statsExampleStore : VectorStore Unit :=
  ⟨[⟨0, "abc".toList, (), none⟩, ⟨1, "abcd".toList, (), none⟩], []⟩

/-- A store whose two stored vectors give finite similarities 1 and -1
against the query vector `[1]`. -/
def rankedExampleStore : VectorStore Unit :=
  ⟨[⟨0, "p0".toList, (), some [1]⟩, ⟨1, "p1".toList, (), some [-1]⟩], []⟩

/-- A store whose first vector is the zero vector, making its similarity to
any query NaN, while the second gives a finite similarity. -/
def nanExampleStore : VectorStore Unit :=
  ⟨[⟨0, "p0".toList, (), some [0]⟩, ⟨1, "p1".toList, (), some [1]⟩], []⟩

/-! Helper lemmas. -/

/-- Trimming never lengthens a string. -/
lemma trim_length_le (l : List Char) : (trim l).length ≤ l.length := by
  have h1 := (List.dropWhile_sublist (l := l) isWs).length_le
  have h2 := (List.dropWhile_sublist (l := (l.dropWhile isWs).reverse) isWs).length_le
  simp only [trim, List.length_reverse] at h2 ⊢
  omega

/-- Trimming an all-whitespace string gives the empty string. -/
lemma trim_eq_nil_of_ws (l : List Char) (h : ∀ c ∈ l, isWs c) : trim l = [] := by
  have h1 : l.dropWhile isWs = [] := by
    rw [List.dropWhile_eq_nil_iff]
    intro c hc
    exact h c hc
  simp [trim, h1]

/-- If no character of the remaining input is sentence-end punctuation, the
split scanner returns a single piece. -/
lemma splitSentencesAux_no_punct (t : List Char) :
    ∀ acc : List Char, (∀ c ∈ t, isSentenceEnd c = false) →
      splitSentencesAux acc t = [acc.reverse ++ t] := by
  induction t with
  | nil => intro acc _; simp [splitSentencesAux]
  | cons c rest ih =>
    intro acc h
    match rest with
    | [] => simp [splitSentencesAux]
    | c2 :: rest2 =>
      have hc : isSentenceEnd c = false := h c (by simp)
      rw [splitSentencesAux, if_neg (by simp [hc])]
      rw [ih (c :: acc) (fun d hd => h d (List.mem_cons_of_mem c hd))]
      simp

/-- A text without sentence-end punctuation is a single sentence. -/
lemma splitSentences_no_punct (t : List Char)
    (h : ∀ c ∈ t, isSentenceEnd c = false) : splitSentences t = [t] := by
  rw [splitSentences, splitSentencesAux_no_punct t [] h]
  simp

/-- The chunk loop yields each pushed chunk either within `maxLength + 1`
characters, or as the trim of a single candidate sentence satisfying `ok`. -/
lemma buildChunks_cases (maxLength : ℕ) (ok : List Char → Prop) :
    ∀ (sentences : List (List Char)) (current : List Char),
      (current = [] ∨ (∃ s, ok s ∧ current = s) ∨ current.length ≤ maxLength + 1) →
      (∀ s ∈ sentences, ok s) →
      ∀ c ∈ buildChunks maxLength sentences current,
        c.length ≤ maxLength + 1 ∨ ∃ s, ok s ∧ c = trim s := by
  intro sentences
  induction sentences with
  | nil =>
    intro current hcur _ c hc
    rw [buildChunks] at hc
    by_cases hne : current = []
    · simp [hne] at hc
    · rw [if_neg hne] at hc
      simp only [List.mem_singleton] at hc
      subst hc
      rcases hcur with h | ⟨s, hs, rfl⟩ | h
      · exact absurd h hne
      · exact Or.inr ⟨current, hs, rfl⟩
      · exact Or.inl (le_trans (trim_length_le current) h)
  | cons s rest ih =>
    intro current hcur hok c hc
    rw [buildChunks] at hc
    by_cases hcond : maxLength < current.length + s.length ∧ current ≠ []
    · rw [if_pos hcond] at hc
      rcases List.mem_cons.mp hc with rfl | hc2
      · rcases hcur with h | ⟨s2, hs2, rfl⟩ | h
        · exact absurd h hcond.2
        · exact Or.inr ⟨current, hs2, rfl⟩
        · exact Or.inl (le_trans (trim_length_le current) h)
      · refine ih s ?_ (fun t ht => hok t (List.mem_cons_of_mem s ht)) c hc2
        exact Or.inr (Or.inl ⟨s, hok s (List.mem_cons_self s rest), rfl⟩)
    · rw [if_neg hcond] at hc
      refine ih ((current ++ if current = [] then [] else [' ']) ++ s) ?_
        (fun t ht => hok t (List.mem_cons_of_mem s ht)) c hc
      by_cases hne : current = []
      · exact Or.inr (Or.inl ⟨s, hok s (List.mem_cons_self s rest), by simp [hne]⟩)
      · have hlen : current.length + s.length ≤ maxLength := by
          rcases not_and_or.mp hcond with h | h
          · omega
          · exact absurd hne (by simpa using h)
        refine Or.inr (Or.inr ?_)
        simp only [if_neg hne, List.length_append, List.length_cons, List.length_nil]
        omega

/-- The documents array after `addDocument`: the old array, followed by one
freshly built record per chunk, each carrying the id equal to the array
length at the moment of its push and whatever the embedding provider
returned for its chunk. -/
lemma addDocument_documents (createEmbedding : List Char → Option (List ℝ))
    (st : VectorStore μ) (text : List Char) (metadata : μ) :
    (st.addDocument createEmbedding text metadata).documents =
      st.documents ++ (((splitIntoChunks text 500).enumFrom st.documents.length).map
        (fun p => ⟨p.1, p.2, metadata, createEmbedding p.2⟩)) := by
  rw [VectorStore.addDocument]
  generalize splitIntoChunks text 500 = chunks
  induction chunks generalizing st with
  | nil => simp
  | cons c cs ih =>
    rw [List.foldl_cons, ih, List.enumFrom_cons]
    simp

/-! Claims about the chunker. -/

/-- Claim C5, corrected.  Every chunk emitted by `splitIntoChunks` has
length at most `maxLength + 1` - one more than the claimed bound, because
the length test at source line 56 concatenates the running chunk and the
sentence without the joining space that line 60 actually inserts - unless
the chunk is the trim of a single candidate sentence, which is emitted
whole regardless of its length. -/
theorem splitIntoChunks_length_bound (text : List Char) (maxLength : ℕ)
    (_hpos : 0 < maxLength) :
    ∀ c ∈ splitIntoChunks text maxLength,
      c.length ≤ maxLength + 1 ∨ ∃ s ∈ splitSentences text, c = trim s := by
  intro c hc
  rcases buildChunks_cases maxLength (fun s => s ∈ splitSentences text)
      (splitSentences text) [] (Or.inl rfl) (fun _ hs => hs) c hc with h | ⟨s, hs, rfl⟩
  · exact Or.inl h
  · exact Or.inr ⟨s, hs, rfl⟩

/-- Witness for the corrected C5 bound at a concrete input. -/
theorem splitIntoChunks_length_bound_witness :
    0 < 20 ∧
    ("A cat sat A dog ran".toList ∈
      splitIntoChunks ("A cat sat. A dog ran. A bird flew.".toList) 20) ∧
    (("A cat sat A dog ran".toList).length ≤ 20 + 1 ∨
      ∃ s ∈ splitSentences ("A cat sat. A dog ran. A bird flew.".toList),
        "A cat sat A dog ran".toList = trim s) :=
  ⟨by norm_num, by decide,
    splitIntoChunks_length_bound _ 20 (by norm_num) _ (by decide)⟩

/-- Claim C5 counterexample.  With `maxLength = 10`, the input
`"aaaa. bbbbbb. c"` yields the chunk `"aaaa bbbbbb"` of length 11 > 10,
and that chunk is not the trim of any single candidate sentence - it is the
space-join of two sentences, so the claimed bound (at most `maxLength`
except for single over-long sentences) fails. -/
theorem splitIntoChunks_bound_counterexample :
    splitIntoChunks ("aaaa. bbbbbb. c".toList) 10 =
      ["aaaa bbbbbb".toList, "c".toList] ∧
    10 < ("aaaa bbbbbb".toList).length ∧
    "aaaa bbbbbb".toList ∉ (splitSentences ("aaaa. bbbbbb. c".toList)).map trim := by
  decide

/-- Claim C6, corrected.  On `"A cat sat. A dog ran. A bird flew."` with
`maxLength = 20` the chunker yields TWO chunks: the split regex consumes
the sentence-terminal punctuation and following space, and the length test
(without the joining space) lets the first two sentences combine into
`"A cat sat A dog ran"` (9 + 9 = 18 <= 20), with `"A bird flew."` keeping
its final period because nothing follows it. -/
theorem splitIntoChunks_scenarioA :
    splitIntoChunks ("A cat sat. A dog ran. A bird flew.".toList) 20 =
      ["A cat sat A dog ran".toList, "A bird flew.".toList] := by
  decide

/-- Claim C6 counterexample.  The output is not the claimed three
single-sentence chunks `["A cat sat.", "A dog ran.", "A bird flew."]`. -/
theorem splitIntoChunks_scenarioA_counterexample :
    splitIntoChunks ("A cat sat. A dog ran. A bird flew.".toList) 20 ≠
      ["A cat sat.".toList, "A dog ran.".toList, "A bird flew.".toList] := by
  decide

/-- Claim C7, corrected.  Empty input yields the empty sequence, but a
non-empty all-whitespace input yields ONE chunk, the empty string: the
whitespace keeps `currentChunk` truthy through the loop, so the final push
fires and `trim` then empties it. -/
theorem splitIntoChunks_empty_and_whitespace :
    (∀ n : ℕ, splitIntoChunks [] n = []) ∧
    (∀ (t : List Char) (n : ℕ), t ≠ [] → (∀ c ∈ t, isWs c) →
      splitIntoChunks t n = [[]]) := by
  constructor
  · intro n
    simp [splitIntoChunks, splitSentences, splitSentencesAux, buildChunks]
  · intro t n ht hws
    have hnp : ∀ c ∈ t, isSentenceEnd c = false := by
      intro c hc
      have hw := hws c hc
      simp only [isWs, Bool.or_eq_true, beq_iff_eq] at hw
      rcases hw with ((rfl | rfl) | rfl) | rfl <;> decide
    have hsp : splitSentences t = [t] := splitSentences_no_punct t hnp
    rw [splitIntoChunks, hsp, buildChunks, if_neg (by simp), buildChunks]
    simp [ht, trim_eq_nil_of_ws t hws]

/-- Witness for the corrected C7 at the concrete whitespace-only input. -/
theorem splitIntoChunks_empty_and_whitespace_witness :
    ("   ".toList ≠ ([] : List Char)) ∧ (∀ c ∈ "   ".toList, isWs c) ∧
    splitIntoChunks ("   ".toList) 5 = [[]] :=
  ⟨by decide, by decide,
    splitIntoChunks_empty_and_whitespace.2 _ 5 (by decide) (by decide)⟩

/-- Claim C7 counterexample.  `split("   ", 5)` returns the one-element
sequence containing the empty string, not the empty sequence. -/
theorem splitIntoChunks_whitespace_counterexample :
    splitIntoChunks ("   ".toList) 5 = [[]] ∧ ([[]] : List (List Char)) ≠ [] := by
  decide

/-! Claims about ingestion and query-time embedding failure. -/

/-- Claim C4, corrected.  `addDocument` stores one record per chunk
unconditionally: a chunk whose embedding fails is NOT skipped - it is
pushed with a `null` embedding - and the remaining chunks continue to be
processed, so ingestion never aborts and appends exactly the chunk list. -/
theorem addDocument_stores_every_chunk (μ : Type)
    (createEmbedding : List Char → Option (List ℝ)) (st : VectorStore μ)
    (text : List Char) (metadata : μ) :
    (st.addDocument createEmbedding text metadata).documents =
      st.documents ++ (((splitIntoChunks text 500).enumFrom st.documents.length).map
        (fun p => ⟨p.1, p.2, metadata, createEmbedding p.2⟩)) :=
  addDocument_documents createEmbedding st text metadata

/-- Claim C4 counterexample.  Ingesting `"hello"` with a provider that
fails on every chunk stores the chunk anyway, with a `null` embedding,
instead of skipping it. -/
theorem addDocument_failed_chunk_stored :
    ((VectorStore.empty Unit).addDocument (fun _ => none) ("hello".toList) ()).documents =
      [⟨0, "hello".toList, (), none⟩] := by
  rfl

/-- Claim C3, corrected.  When the provider fails to embed the query,
`search` RETURNS the empty result list (source lines 107-109): the failure
is recovered into a normal return value, not propagated as an error. -/
theorem search_embedding_failure_returns_empty (μ : Type)
    (createEmbedding : List Char → Option (List ℝ)) (st : VectorStore μ)
    (query : List Char) (topK : ℕ) (h : createEmbedding query = none) :
    st.search createEmbedding query topK = [] := by
  simp [VectorStore.search, h]

/-- Witness for the corrected C3 at a concrete failing provider. -/
theorem search_embedding_failure_returns_empty_witness :
    ((fun _ : List Char => (none : Option (List ℝ))) ("q".toList) = none) ∧
    statsExampleStore.search (fun _ => none) ("q".toList) 3 = [] :=
  ⟨rfl, search_embedding_failure_returns_empty Unit _ statsExampleStore _ 3 rfl⟩

/-- Claim C3 counterexample.  A store holding one passage, queried with a
failing embedding provider, yields the empty result list - a returned
value, not a propagated `QueryEmbeddingFailed` error. -/
theorem search_embedding_failure_counterexample :
    statsExampleStore.search (fun _ => none) ("q".toList) 3 = [] ∧
    statsExampleStore.documents ≠ [] := by
  exact ⟨rfl, by simp [statsExampleStore]⟩

/-! Claims about statistics and the append-only id discipline. -/

/-- Claim C10, confirmed.  For a non-empty store, `averageChunkSize` is the
floor of the exact rational mean of the stored chunk lengths (`Math.floor`
truncation); on the concrete store with chunk lengths 3 and 4 it returns 3,
not the exact mean 7/2. -/
theorem getStats_average_floor :
    (∀ (μ : Type) (st : VectorStore μ), 0 < st.documents.length →
      (st.getStats).averageChunkSize =
        ⌊((st.getStats).totalCharacters : ℚ) / ((st.getStats).documentCount : ℚ)⌋₊) ∧
    (statsExampleStore.getStats).averageChunkSize = 3 ∧ ((7 : ℚ) / 2 ≠ 3) := by
  refine ⟨?_, by rfl, by norm_num⟩
  intro μ st h
  simp only [VectorStore.getStats, if_pos h]
  rw [Nat.floor_div_nat]
  simp

/-- Witness for C10 at the concrete two-chunk store. -/
theorem getStats_average_floor_witness :
    0 < statsExampleStore.documents.length ∧
    (statsExampleStore.getStats).averageChunkSize =
      ⌊((statsExampleStore.getStats).totalCharacters : ℚ) /
        ((statsExampleStore.getStats).documentCount : ℚ)⌋₊ :=
  ⟨by decide, getStats_average_floor.1 Unit statsExampleStore (by decide)⟩

/-- Claim C9, confirmed.  Every public call preserves the id invariant
(ids are `0..n-1` in insertion order, each assigned as the collection size
at its append) and leaves every previously stored passage in place and
unchanged (the old array is a prefix of the new one); `search` and
`getStats` do not modify the store at all. -/
theorem store_append_only_ids (μ : Type)
    (createEmbedding : List Char → Option (List ℝ)) (st : VectorStore μ)
    (op : Op μ) (h : idsOk st) :
    idsOk (applyOp createEmbedding st op) ∧
    (applyOp createEmbedding st op).documents.take st.documents.length = st.documents := by
  cases op with
  | add text metadata =>
    constructor
    · unfold idsOk at h ⊢
      rw [applyOp, addDocument_documents, List.map_append, List.map_map]
      have hfst : (Passage.id ∘ fun p : ℕ × List Char =>
          (⟨p.1, p.2, metadata, createEmbedding p.2⟩ : Passage μ)) = Prod.fst := rfl
      rw [hfst, List.enumFrom_map_fst, h, List.length_append, List.length_map,
        List.enumFrom_length, List.range_eq_range', List.range_eq_range']
      have happ := List.range'_append 0 st.documents.length
        (splitIntoChunks text 500).length 1
      simp only [Nat.zero_add, Nat.one_mul] at happ
      rw [happ, Nat.add_comm]
    · rw [applyOp, addDocument_documents]
      exact List.take_left st.documents _
  | search query topK => exact ⟨h, by simp [applyOp]⟩
  | stats => exact ⟨h, by simp [applyOp]⟩

/-- Witness for C9: one concrete ingest starting from the empty store. -/
theorem store_append_only_ids_witness :
    idsOk (VectorStore.empty Unit) ∧
    (idsOk (applyOp (fun _ => none) (VectorStore.empty Unit) (Op.add ("hello".toList) ())) ∧
      (applyOp (fun _ => none) (VectorStore.empty Unit)
          (Op.add ("hello".toList) ())).documents.take
        (VectorStore.empty Unit).documents.length = (VectorStore.empty Unit).documents) :=
  ⟨rfl, store_append_only_ids Unit (fun _ => none) (VectorStore.empty Unit)
    (Op.add ("hello".toList) ()) rfl⟩

/-! Lemmas about the number model and the similarity loop. -/

lemma add_nan_right (a : JsNum) : a.add JsNum.nan = JsNum.nan := by
  cases a <;> rfl

lemma mul_nan_right (a : JsNum) : a.mul JsNum.nan = JsNum.nan := by
  cases a <;> rfl

lemma div_nan_left (b : JsNum) : JsNum.nan.div b = JsNum.nan := by
  cases b <;> rfl

lemma add_val_val (x y : ℝ) :
    (JsNum.val x).add (JsNum.val y) = JsNum.val (x + y) := rfl

lemma mul_val_val (x y : ℝ) :
    (JsNum.val x).mul (JsNum.val y) = JsNum.val (x * y) := rfl

lemma div_val_val (x y : ℝ) :
    (JsNum.val x).div (JsNum.val y) =
      if y = 0 then
        (if x = 0 then JsNum.nan else if 0 < x then JsNum.posInf else JsNum.negInf)
      else JsNum.val (x / y) := rfl

/-- JavaScript multiplication is commutative (also through the special
values). -/
lemma js_mul_comm (a b : JsNum) : a.mul b = b.mul a := by
  cases a <;> cases b <;> simp [JsNum.mul, mul_comm]

lemma sqrt_val_nonneg {x : ℝ} (h : 0 ≤ x) :
    (JsNum.val x).sqrt = JsNum.val (Real.sqrt x) := by
  rw [JsNum.sqrt, if_neg (not_lt.2 h)]

lemma div_zero_zero : (JsNum.val 0).div (JsNum.val 0) = JsNum.nan := by
  simp [JsNum.div]

/-- The similarity loop when every entry of the first vector is zero:
`norm1` stays zero, and the dot product and `norm2` are either (finite zero,
finite non-negative) - while the second vector still has entries - or both
NaN once it has run out. -/
lemma csLoop_left_zero (v1 : List ℝ) :
    ∀ (v2 : List ℝ) (d n2 : JsNum),
      (∀ x ∈ v1, x = (0:ℝ)) →
      ((d = JsNum.val 0 ∧ ∃ c : ℝ, 0 ≤ c ∧ n2 = JsNum.val c) ∨
        (d = JsNum.nan ∧ n2 = JsNum.nan)) →
      ∃ d' n2' : JsNum,
        csLoop v1 v2 d (JsNum.val 0) n2 = (d', JsNum.val 0, n2') ∧
        ((d' = JsNum.val 0 ∧ ∃ c : ℝ, 0 ≤ c ∧ n2' = JsNum.val c) ∨
          (d' = JsNum.nan ∧ n2' = JsNum.nan)) := by
  induction v1 with
  | nil => exact fun v2 d n2 _ hinv => ⟨d, n2, rfl, hinv⟩
  | cons x xs ih =>
    intro v2 d n2 hz hinv
    have hx : x = 0 := hz x (by simp)
    subst hx
    rw [csLoop]
    have hn1 : (JsNum.val (0:ℝ)).add ((JsNum.val (0:ℝ)).mul (JsNum.val 0)) = JsNum.val 0 := by
      simp [JsNum.add, JsNum.mul]
    rw [hn1]
    have hz' : ∀ y ∈ xs, y = (0:ℝ) := fun y hy => hz y (by simp [hy])
    cases v2 with
    | nil =>
      have hd : d.add ((JsNum.val (0:ℝ)).mul (elemNum [])) = JsNum.nan := by
        rw [show elemNum ([] : List ℝ) = JsNum.nan from rfl, mul_nan_right, add_nan_right]
      have hn2 : n2.add ((elemNum ([] : List ℝ)).mul (elemNum [])) = JsNum.nan := by
        rw [show elemNum ([] : List ℝ) = JsNum.nan from rfl, mul_nan_right, add_nan_right]
      rw [hd, hn2]
      exact ih [] JsNum.nan JsNum.nan hz' (Or.inr ⟨rfl, rfl⟩)
    | cons z zs =>
      have he : elemNum (z :: zs) = JsNum.val z := rfl
      rcases hinv with ⟨rfl, c, hc, rfl⟩ | ⟨rfl, rfl⟩
      · have hd : (JsNum.val (0:ℝ)).add ((JsNum.val (0:ℝ)).mul (elemNum (z :: zs))) =
            JsNum.val 0 := by
          rw [he]; simp [JsNum.add, JsNum.mul]
        have hn2 : (JsNum.val c).add ((elemNum (z :: zs)).mul (elemNum (z :: zs))) =
            JsNum.val (c + z * z) := by
          rw [he]; simp [JsNum.add, JsNum.mul]
        rw [hd, hn2]
        exact ih zs (JsNum.val 0) (JsNum.val (c + z * z)) hz'
          (Or.inl ⟨rfl, c + z * z, add_nonneg hc (mul_self_nonneg z), rfl⟩)
      · have hd : JsNum.nan.add ((JsNum.val (0:ℝ)).mul (elemNum (z :: zs))) = JsNum.nan := rfl
        have hn2 : JsNum.nan.add ((elemNum (z :: zs)).mul (elemNum (z :: zs))) = JsNum.nan := rfl
        rw [hd, hn2]
        exact ih zs JsNum.nan JsNum.nan hz' (Or.inr ⟨rfl, rfl⟩)

/-- The similarity loop when every entry of the second vector is zero:
`norm1` stays finite non-negative, and the dot product and `norm2` are
either both finite zero or both NaN. -/
lemma csLoop_right_zero (v1 : List ℝ) :
    ∀ (v2 : List ℝ) (d n1 n2 : JsNum),
      (∀ x ∈ v2, x = (0:ℝ)) →
      ((d = JsNum.val 0 ∧ n2 = JsNum.val 0) ∨ (d = JsNum.nan ∧ n2 = JsNum.nan)) →
      (∃ a : ℝ, 0 ≤ a ∧ n1 = JsNum.val a) →
      ∃ d' n1' n2' : JsNum,
        csLoop v1 v2 d n1 n2 = (d', n1', n2') ∧
        ((d' = JsNum.val 0 ∧ n2' = JsNum.val 0) ∨ (d' = JsNum.nan ∧ n2' = JsNum.nan)) ∧
        (∃ a : ℝ, 0 ≤ a ∧ n1' = JsNum.val a) := by
  induction v1 with
  | nil => exact fun v2 d n1 n2 _ hinv hn1 => ⟨d, n1, n2, rfl, hinv, hn1⟩
  | cons x xs ih =>
    intro v2 d n1 n2 hz hinv hn1
    rcases hn1 with ⟨a, ha, rfl⟩
    rw [csLoop]
    have hstep1 : (JsNum.val a).add ((JsNum.val x).mul (JsNum.val x)) =
        JsNum.val (a + x * x) := by simp [JsNum.add, JsNum.mul]
    rw [hstep1]
    cases v2 with
    | nil =>
      have hd : d.add ((JsNum.val x).mul (elemNum [])) = JsNum.nan := by
        rw [show elemNum ([] : List ℝ) = JsNum.nan from rfl, mul_nan_right, add_nan_right]
      have hn2 : n2.add ((elemNum ([] : List ℝ)).mul (elemNum [])) = JsNum.nan := by
        rw [show elemNum ([] : List ℝ) = JsNum.nan from rfl, mul_nan_right, add_nan_right]
      rw [hd, hn2]
      exact ih [] JsNum.nan (JsNum.val (a + x * x)) JsNum.nan (by simp)
        (Or.inr ⟨rfl, rfl⟩) ⟨a + x * x, add_nonneg ha (mul_self_nonneg x), rfl⟩
    | cons z zs =>
      have hzz : z = 0 := hz z (by simp)
      subst hzz
      have he : elemNum ((0:ℝ) :: zs) = JsNum.val 0 := rfl
      have hz' : ∀ y ∈ zs, y = (0:ℝ) := fun y hy => hz y (by simp [hy])
      rcases hinv with ⟨rfl, rfl⟩ | ⟨rfl, rfl⟩
      · have hd : (JsNum.val (0:ℝ)).add ((JsNum.val x).mul (elemNum ((0:ℝ) :: zs))) =
            JsNum.val 0 := by rw [he]; simp [JsNum.add, JsNum.mul]
        have hn2 : (JsNum.val (0:ℝ)).add ((elemNum ((0:ℝ) :: zs)).mul (elemNum ((0:ℝ) :: zs))) =
            JsNum.val 0 := by rw [he]; simp [JsNum.add, JsNum.mul]
        rw [hd, hn2]
        exact ih zs (JsNum.val 0) (JsNum.val (a + x * x)) (JsNum.val 0) hz'
          (Or.inl ⟨rfl, rfl⟩) ⟨a + x * x, add_nonneg ha (mul_self_nonneg x), rfl⟩
      · have hd : JsNum.nan.add ((JsNum.val x).mul (elemNum ((0:ℝ) :: zs))) = JsNum.nan := rfl
        have hn2 : JsNum.nan.add ((elemNum ((0:ℝ) :: zs)).mul (elemNum ((0:ℝ) :: zs))) =
            JsNum.nan := rfl
        rw [hd, hn2]
        exact ih zs JsNum.nan (JsNum.val (a + x * x)) JsNum.nan hz'
          (Or.inr ⟨rfl, rfl⟩) ⟨a + x * x, add_nonneg ha (mul_self_nonneg x), rfl⟩

/-- Swapping the two vectors swaps the roles of the two norm accumulators
and transposes each product in the dot accumulator. -/
lemma csLoop_swap (v1 : List ℝ) :
    ∀ (v2 : List ℝ), v1.length = v2.length →
      ∀ d n1 n2, csLoop v2 v1 d n2 n1 =
        ((csLoop v1 v2 d n1 n2).1, (csLoop v1 v2 d n1 n2).2.2, (csLoop v1 v2 d n1 n2).2.1) := by
  induction v1 with
  | nil =>
    intro v2 h d n1 n2
    cases v2 with
    | nil => rfl
    | cons z zs => simp at h
  | cons x xs ih =>
    intro v2 h d n1 n2
    cases v2 with
    | nil => simp at h
    | cons z zs =>
      have hlen : xs.length = zs.length := by simpa using h
      rw [csLoop, csLoop]
      simp only [show elemNum (x :: xs) = JsNum.val x from rfl,
        show elemNum (z :: zs) = JsNum.val z from rfl, List.tail_cons]
      rw [js_mul_comm (JsNum.val z) (JsNum.val x)]
      exact ih zs hlen (d.add ((JsNum.val x).mul (JsNum.val z)))
        (n1.add ((JsNum.val x).mul (JsNum.val x)))
        (n2.add ((JsNum.val z).mul (JsNum.val z)))

/-! Claims about cosine similarity. -/

/-- Claim C2, corrected.  The `!vec1 || !vec2` guard does return exactly 0
for an absent/invalid vector and the function never throws; but when both
vectors are present and either has zero norm (all entries zero, including
the empty vector), the final division is `0/0` - possibly after NaN
contamination from out-of-range reads - and the result is NaN, not 0. -/
theorem cosineSimilarity_edge_cases :
    (∀ v : Option (List ℝ), cosineSimilarity none v = JsNum.val 0) ∧
    (∀ v : List ℝ, cosineSimilarity (some v) none = JsNum.val 0) ∧
    (∀ v1 v2 : List ℝ, ((∀ x ∈ v1, x = (0:ℝ)) ∨ (∀ x ∈ v2, x = (0:ℝ))) →
      cosineSimilarity (some v1) (some v2) = JsNum.nan) := by
  refine ⟨fun v => rfl, fun v => rfl, fun v1 v2 h => ?_⟩
  rcases h with h | h
  · rcases csLoop_left_zero v1 v2 (JsNum.val 0) (JsNum.val 0) h
        (Or.inl ⟨rfl, 0, le_refl 0, rfl⟩) with ⟨d2, n2, heq, hinv⟩
    have hcs : cosineSimilarity (some v1) (some v2) =
        d2.div (((JsNum.val 0).sqrt).mul (n2.sqrt)) := by
      show (csLoop v1 v2 (JsNum.val 0) (JsNum.val 0) (JsNum.val 0)).1.div
        ((((csLoop v1 v2 (JsNum.val 0) (JsNum.val 0) (JsNum.val 0)).2.1).sqrt).mul
          (((csLoop v1 v2 (JsNum.val 0) (JsNum.val 0) (JsNum.val 0)).2.2).sqrt)) = _
      rw [heq]
    rw [hcs]
    rcases hinv with ⟨rfl, c, hc, rfl⟩ | ⟨rfl, rfl⟩
    · rw [sqrt_val_nonneg (le_refl 0), sqrt_val_nonneg hc, Real.sqrt_zero,
        mul_val_val, zero_mul]
      exact div_zero_zero
    · exact div_nan_left _
  · rcases csLoop_right_zero v1 v2 (JsNum.val 0) (JsNum.val 0) (JsNum.val 0) h
        (Or.inl ⟨rfl, rfl⟩) ⟨0, le_refl 0, rfl⟩ with ⟨d2, n1, n2, heq, hinv, a, ha, rfl⟩
    have hcs : cosineSimilarity (some v1) (some v2) =
        d2.div (((JsNum.val a).sqrt).mul (n2.sqrt)) := by
      show (csLoop v1 v2 (JsNum.val 0) (JsNum.val 0) (JsNum.val 0)).1.div
        ((((csLoop v1 v2 (JsNum.val 0) (JsNum.val 0) (JsNum.val 0)).2.1).sqrt).mul
          (((csLoop v1 v2 (JsNum.val 0) (JsNum.val 0) (JsNum.val 0)).2.2).sqrt)) = _
      rw [heq]
    rw [hcs]
    rcases hinv with ⟨rfl, rfl⟩ | ⟨rfl, rfl⟩
    · rw [sqrt_val_nonneg ha, sqrt_val_nonneg (le_refl 0), Real.sqrt_zero,
        mul_val_val, mul_zero]
      exact div_zero_zero
    · exact div_nan_left _

/-- Witness for the corrected C2: the absent-vector guard and the zero-norm
NaN case, both at concrete inputs. -/
theorem cosineSimilarity_edge_cases_witness :
    cosineSimilarity none (some [(1:ℝ)]) = JsNum.val 0 ∧
    ((∀ x ∈ [(0:ℝ)], x = (0:ℝ)) ∨ (∀ x ∈ [(1:ℝ)], x = (0:ℝ))) ∧
    cosineSimilarity (some [(0:ℝ)]) (some [(1:ℝ)]) = JsNum.nan :=
  ⟨cosineSimilarity_edge_cases.1 (some [(1:ℝ)]),
    Or.inl (by simp),
    cosineSimilarity_edge_cases.2.2 [(0:ℝ)] [(1:ℝ)] (Or.inl (by simp))⟩

/-- Claim C2 counterexample.  The zero vector `[0]` against `[1]`: both
vectors are present and valid, `norm1` is zero, and the result is
`0/0 = NaN`, not the claimed 0. -/
theorem cosineSimilarity_zero_vector_nan :
    cosineSimilarity (some [(0:ℝ)]) (some [(1:ℝ)]) = JsNum.nan ∧
    JsNum.nan ≠ JsNum.val 0 := by
  constructor
  · have hcs : cosineSimilarity (some [(0:ℝ)]) (some [(1:ℝ)]) =
        (JsNum.val 0).div (((JsNum.val 0).sqrt).mul ((JsNum.val 1).sqrt)) := by
      show (JsNum.val (0 + 0 * 1)).div
        (((JsNum.val (0 + 0 * 0)).sqrt).mul ((JsNum.val (0 + 1 * 1)).sqrt)) = _
      norm_num
    rw [hcs, sqrt_val_nonneg (le_refl 0), sqrt_val_nonneg zero_le_one,
      Real.sqrt_zero, Real.sqrt_one, mul_val_val, zero_mul]
    exact div_zero_zero
  · simp

/-- Claim C8, corrected.  Cosine similarity is symmetric for vectors of
equal length, and also when either argument is absent; but not in general:
the loop runs over the indices of the FIRST vector, so unequal lengths
break the symmetry (see the counterexample). -/
theorem cosineSimilarity_symm_equal_length :
    (∀ v : Option (List ℝ), cosineSimilarity none v = cosineSimilarity v none) ∧
    (∀ v1 v2 : List ℝ, v1.length = v2.length →
      cosineSimilarity (some v1) (some v2) = cosineSimilarity (some v2) (some v1)) := by
  constructor
  · intro v; cases v <;> rfl
  · intro v1 v2 h
    show (csLoop v1 v2 (JsNum.val 0) (JsNum.val 0) (JsNum.val 0)).1.div
        ((((csLoop v1 v2 (JsNum.val 0) (JsNum.val 0) (JsNum.val 0)).2.1).sqrt).mul
          (((csLoop v1 v2 (JsNum.val 0) (JsNum.val 0) (JsNum.val 0)).2.2).sqrt)) =
      (csLoop v2 v1 (JsNum.val 0) (JsNum.val 0) (JsNum.val 0)).1.div
        ((((csLoop v2 v1 (JsNum.val 0) (JsNum.val 0) (JsNum.val 0)).2.1).sqrt).mul
          (((csLoop v2 v1 (JsNum.val 0) (JsNum.val 0) (JsNum.val 0)).2.2).sqrt))
    rw [csLoop_swap v1 v2 h]
    rw [js_mul_comm]

/-- Witness for the corrected C8 at two concrete equal-length vectors. -/
theorem cosineSimilarity_symm_witness :
    ([(1:ℝ), 2].length = [(3:ℝ), 4].length) ∧
    cosineSimilarity (some [(1:ℝ), 2]) (some [(3:ℝ), 4]) =
      cosineSimilarity (some [(3:ℝ), 4]) (some [(1:ℝ), 2]) :=
  ⟨rfl, cosineSimilarity_symm_equal_length.2 [(1:ℝ), 2] [(3:ℝ), 4] rfl⟩

/-- Claim C8 counterexample.  With vectors of unequal length the similarity
is not symmetric: `cos([1], [1,1]) = 1` but `cos([1,1], [1])` reads past the
end of the second vector and returns NaN. -/
theorem cosineSimilarity_not_symm_unequal_length :
    cosineSimilarity (some [(1:ℝ)]) (some [(1:ℝ), 1]) = JsNum.val 1 ∧
    cosineSimilarity (some [(1:ℝ), 1]) (some [(1:ℝ)]) = JsNum.nan ∧
    JsNum.val (1:ℝ) ≠ JsNum.nan := by
  refine ⟨?_, ?_, by simp⟩
  · have hcs : cosineSimilarity (some [(1:ℝ)]) (some [(1:ℝ), 1]) =
        (JsNum.val 1).div (((JsNum.val 1).sqrt).mul ((JsNum.val 1).sqrt)) := by
      show (JsNum.val (0 + 1 * 1)).div
        (((JsNum.val (0 + 1 * 1)).sqrt).mul ((JsNum.val (0 + 1 * 1)).sqrt)) = _
      norm_num
    rw [hcs, sqrt_val_nonneg zero_le_one, Real.sqrt_one, mul_val_val, one_mul,
      div_val_val, if_neg one_ne_zero]
    norm_num
  · have hcs : cosineSimilarity (some [(1:ℝ), 1]) (some [(1:ℝ)]) =
        JsNum.nan.div (((JsNum.val (0 + 1 * 1 + 1 * 1))).sqrt.mul JsNum.nan.sqrt) := by
      show ((JsNum.val (0 + 1 * 1)).add ((JsNum.val 1).mul JsNum.nan)).div
        ((((JsNum.val (0 + 1 * 1)).add ((JsNum.val 1).mul (JsNum.val 1))).sqrt).mul
          ((((JsNum.val (0 + 1 * 1)).add (JsNum.nan.mul JsNum.nan))).sqrt)) = _
      rw [mul_nan_right, add_nan_right]
      rw [show JsNum.nan.mul JsNum.nan = JsNum.nan from rfl, add_nan_right]
      rw [mul_val_val, add_val_val]
    rw [hcs]
    exact div_nan_left _

/-! Lemmas about the stable similarity sort. -/

/-- For two entries with plain finite similarities, the sort keeps their
order exactly when the earlier one's similarity is at least the later
one's. -/
lemma simCompareKeep_val {μ : Type} {a b : Passage μ × JsNum} {x y : ℝ}
    (ha : a.2 = JsNum.val x) (hb : b.2 = JsNum.val y) :
    (simCompareKeep a b = true ↔ y ≤ x) := by
  rw [simCompareKeep, hb, ha]
  rw [show (JsNum.val y).sub (JsNum.val x) = JsNum.val (y - x) from rfl]
  rw [show sortKeep (JsNum.val (y - x)) = decide (y - x ≤ 0) from rfl]
  rw [decide_eq_true_iff]
  exact sub_nonpos

/-- Everything in a stable insertion is either an old element or the
inserted one. -/
lemma stableInsert_mem (le : α → α → Bool) (x : α) :
    ∀ (acc : List α) (z : α), z ∈ stableInsert le x acc → z ∈ acc ∨ z = x := by
  intro acc
  induction acc with
  | nil =>
    intro z hz
    rw [stableInsert, List.mem_singleton] at hz
    exact Or.inr hz
  | cons y ys ih =>
    intro z hz
    rw [stableInsert] at hz
    by_cases hkeep : le y x = true
    · rw [if_pos hkeep] at hz
      rcases List.mem_cons.mp hz with rfl | hz2
      · exact Or.inl (List.mem_cons_self z ys)
      · rcases ih z hz2 with h | h
        · exact Or.inl (List.mem_cons_of_mem y h)
        · exact Or.inr h
    · rw [if_neg hkeep] at hz
      rcases List.mem_cons.mp hz with rfl | hz2
      · exact Or.inr rfl
      · exact Or.inl hz2

/-- Stable insertion of an element with a plain finite similarity and the
largest id so far into a list already ordered by `rankedGood` keeps the
list ordered by `rankedGood`. -/
lemma stableInsert_good {μ : Type} (x : Passage μ × JsNum) :
    ∀ acc : List (Passage μ × JsNum),
      (∃ r : ℝ, x.2 = JsNum.val r) →
      (∀ y ∈ acc, ∃ r : ℝ, y.2 = JsNum.val r) →
      (∀ y ∈ acc, y.1.id < x.1.id) →
      acc.Pairwise rankedGood →
      (stableInsert simCompareKeep x acc).Pairwise rankedGood := by
  intro acc
  induction acc with
  | nil =>
    intro _ _ _ _
    rw [stableInsert]
    exact List.pairwise_singleton _ _
  | cons y ys ih =>
    intro hx hval hid hgood
    rcases hx with ⟨rx, hrx⟩
    rcases hval y (List.mem_cons_self y ys) with ⟨ry, hry⟩
    rw [stableInsert]
    by_cases hkeep : simCompareKeep y x = true
    · rw [if_pos hkeep]
      rw [List.pairwise_cons]
      have hyle : rx ≤ ry := (simCompareKeep_val hry hrx).mp hkeep
      constructor
      · intro z hz
        rcases stableInsert_mem simCompareKeep x ys z hz with hz2 | rfl
        · exact (List.pairwise_cons.mp hgood).1 z hz2
        · refine ⟨ry, rx, hry, hrx, ?_⟩
          rcases lt_or_eq_of_le hyle with hlt | heq2
          · exact Or.inl hlt
          · exact Or.inr ⟨heq2.symm, hid y (List.mem_cons_self y ys)⟩
      · exact ih ⟨rx, hrx⟩ (fun z hz => hval z (List.mem_cons_of_mem y hz))
          (fun z hz => hid z (List.mem_cons_of_mem y hz))
          (List.pairwise_cons.mp hgood).2
    · rw [if_neg hkeep]
      have hgt : ry < rx := by
        have hnot := (simCompareKeep_val hry hrx).not.mpr ?_
        · exact lt_of_not_le (fun hle => hkeep ((simCompareKeep_val hry hrx).mpr hle))
        · exact fun hle => hkeep ((simCompareKeep_val hry hrx).mpr hle)
      rw [List.pairwise_cons]
      refine ⟨?_, hgood⟩
      intro z hz
      rcases List.mem_cons.mp hz with rfl | hz2
      · exact ⟨rx, ry, hrx, hry, Or.inl hgt⟩
      · rcases (List.pairwise_cons.mp hgood).1 z hz2 with ⟨ry2, rz, hry2, hrz, hcase⟩
        have hyy : ry2 = ry := by
          rw [hry] at hry2
          exact JsNum.val.inj hry2.symm
        subst hyy
        have hrz_le : rz ≤ ry2 := by
          rcases hcase with hlt | ⟨heq2, _⟩
          · exact le_of_lt hlt
          · exact le_of_eq heq2.symm
        exact ⟨rx, rz, hrx, hrz, Or.inl (lt_of_le_of_lt hrz_le (by exact hgt))⟩

/-- The insertion fold underlying `stableSort` produces a `rankedGood`
ordered list when all similarities are plain finite numbers and the input
ids strictly increase. -/
lemma stableSort_fold_good {μ : Type} :
    ∀ (l acc : List (Passage μ × JsNum)),
      (∀ p ∈ l, ∃ r : ℝ, p.2 = JsNum.val r) →
      (∀ y ∈ acc, ∃ r : ℝ, y.2 = JsNum.val r) →
      (∀ y ∈ acc, ∀ p ∈ l, y.1.id < p.1.id) →
      l.Pairwise (fun a b => a.1.id < b.1.id) →
      acc.Pairwise rankedGood →
      (l.foldl (fun acc x => stableInsert simCompareKeep x acc) acc).Pairwise rankedGood := by
  intro l
  induction l with
  | nil => exact fun acc _ _ _ _ hacc => hacc
  | cons x xs ih =>
    intro acc hl hval hid hpl hacc
    rw [List.foldl_cons]
    refine ih (stableInsert simCompareKeep x acc)
      (fun p hp => hl p (List.mem_cons_of_mem x hp)) ?_ ?_
      (List.pairwise_cons.mp hpl).2 ?_
    · intro z hz
      rcases stableInsert_mem simCompareKeep x acc z hz with hz2 | rfl
      · exact hval z hz2
      · exact hl z (List.mem_cons_self z xs)
    · intro z hz p hp
      rcases stableInsert_mem simCompareKeep x acc z hz with hz2 | rfl
      · exact hid z hz2 p (List.mem_cons_of_mem x hp)
      · exact (List.pairwise_cons.mp hpl).1 p hp
    · exact stableInsert_good x acc (hl x (List.mem_cons_self x xs)) hval
        (fun y hy => hid y hy x (List.mem_cons_self x xs)) hacc

/-! Claims about search ordering. -/

/-- Claim C1, corrected.  Whenever the provider embeds the query and every
stored document's similarity to that query embedding is a plain finite
number (no NaN - in particular no zero-norm or length-mismatched vectors),
the search results are sorted by similarity in descending order under the
JavaScript `>=`, ties are broken stably by insertion order (smaller id
first) in the ranked array, and the returned list is exactly the first
`topK` ranked entries projected to text, metadata and score.  Without the
no-NaN condition the ordering guarantee fails (see the counterexample). -/
theorem search_sorted_and_stable (μ : Type)
    (createEmbedding : List Char → Option (List ℝ)) (st : VectorStore μ)
    (query : List Char) (queryEmbedding : List ℝ) (topK : ℕ)
    (hq : createEmbedding query = some queryEmbedding)
    (hids : st.documents.Pairwise (fun a b => a.id < b.id))
    (hval : ∀ doc ∈ st.documents, ∃ r : ℝ,
      cosineSimilarity (some queryEmbedding) doc.embedding = JsNum.val r) :
    ((st.search createEmbedding query topK).map SearchResult.similarity).Pairwise JsNum.jsGe ∧
    ((searchRanked st queryEmbedding).Pairwise
      (fun a b => a.2 = b.2 → a.1.id < b.1.id)) ∧
    st.search createEmbedding query topK =
      ((searchRanked st queryEmbedding).take topK).map
        (fun p => ⟨p.1.text, p.1.metadata, p.2⟩) := by
  have hgood : (searchRanked st queryEmbedding).Pairwise rankedGood := by
    rw [searchRanked, stableSort]
    refine stableSort_fold_good _ [] ?_ ?_ ?_ ?_ List.Pairwise.nil
    · intro p hp
      rcases List.mem_map.mp hp with ⟨doc, hdoc, rfl⟩
      exact hval doc hdoc
    · intro y hy; exact absurd hy (List.not_mem_nil y)
    · intro y hy; exact absurd hy (List.not_mem_nil y)
    · rw [List.pairwise_map]
      exact hids
  have hsearch : st.search createEmbedding query topK =
      ((searchRanked st queryEmbedding).take topK).map
        (fun p => ⟨p.1.text, p.1.metadata, p.2⟩) := by
    rw [VectorStore.search, hq]
  refine ⟨?_, ?_, hsearch⟩
  · rw [hsearch, List.map_map]
    have htake : ((searchRanked st queryEmbedding).take topK).Pairwise rankedGood :=
      hgood.sublist (List.take_sublist _ _)
    rw [List.pairwise_map]
    refine List.Pairwise.imp ?_ htake
    intro a b hab
    rcases hab with ⟨x, y, ha, hb, hcase⟩
    show JsNum.jsGe a.2 b.2
    rw [ha, hb]
    show y ≤ x
    rcases hcase with hlt | ⟨heq2, _⟩
    · exact le_of_lt hlt
    · exact le_of_eq heq2.symm
  · refine List.Pairwise.imp ?_ hgood
    intro a b hab heq
    rcases hab with ⟨x, y, ha, hb, hcase⟩
    rcases hcase with hlt | ⟨_, hid⟩
    · exfalso
      rw [ha, hb] at heq
      have hxy : x = y := JsNum.val.inj heq
      subst hxy
      exact lt_irrefl x hlt
    · exact hid

/-- Witness for the corrected C1 on a concrete two-passage store whose
similarities to the query `[1]` are the finite numbers 1 and -1. -/
theorem search_sorted_and_stable_witness :
    ((fun _ : List Char => some [(1:ℝ)]) ("q".toList) = some [(1:ℝ)]) ∧
    (rankedExampleStore.documents.Pairwise (fun a b => a.id < b.id)) ∧
    ((rankedExampleStore.search (fun _ => some [(1:ℝ)]) ("q".toList) 3).map
      SearchResult.similarity).Pairwise JsNum.jsGe ∧
    ((searchRanked rankedExampleStore [(1:ℝ)]).Pairwise
      (fun a b => a.2 = b.2 → a.1.id < b.1.id)) := by
  have hids : rankedExampleStore.documents.Pairwise (fun a b => a.id < b.id) := by
    simp [rankedExampleStore]
  have hc1 : cosineSimilarity (some [(1:ℝ)]) (some [(1:ℝ)]) = JsNum.val 1 := by
    have hcs : cosineSimilarity (some [(1:ℝ)]) (some [(1:ℝ)]) =
        (JsNum.val 1).div (((JsNum.val 1).sqrt).mul ((JsNum.val 1).sqrt)) := by
      show (JsNum.val (0 + 1 * 1)).div
        (((JsNum.val (0 + 1 * 1)).sqrt).mul ((JsNum.val (0 + 1 * 1)).sqrt)) = _
      norm_num
    rw [hcs, sqrt_val_nonneg zero_le_one, Real.sqrt_one, mul_val_val, one_mul,
      div_val_val, if_neg one_ne_zero]
    norm_num
  have hc2 : cosineSimilarity (some [(1:ℝ)]) (some [(-1:ℝ)]) = JsNum.val (-1) := by
    have hcs : cosineSimilarity (some [(1:ℝ)]) (some [(-1:ℝ)]) =
        (JsNum.val (-1)).div (((JsNum.val 1).sqrt).mul ((JsNum.val 1).sqrt)) := by
      show (JsNum.val (0 + 1 * (-1))).div
        (((JsNum.val (0 + 1 * 1)).sqrt).mul ((JsNum.val (0 + (-1) * (-1))).sqrt)) = _
      norm_num
    rw [hcs, sqrt_val_nonneg zero_le_one, Real.sqrt_one, mul_val_val, one_mul,
      div_val_val, if_neg one_ne_zero]
    norm_num
  have hval : ∀ doc ∈ rankedExampleStore.documents, ∃ r : ℝ,
      cosineSimilarity (some [(1:ℝ)]) doc.embedding = JsNum.val r := by
    intro doc hdoc
    rcases List.mem_cons.mp hdoc with rfl | hdoc2
    · exact ⟨1, hc1⟩
    · rcases List.mem_cons.mp hdoc2 with rfl | hdoc3
      · exact ⟨-1, hc2⟩
      · exact absurd hdoc3 (List.not_mem_nil doc)
  have h := search_sorted_and_stable Unit (fun _ => some [(1:ℝ)]) rankedExampleStore
    ("q".toList) [(1:ℝ)] 3 rfl hids hval
  exact ⟨rfl, hids, h.1, h.2.1⟩

/-- Claim C1 counterexample.  When a stored vector is the zero vector, its
similarity is NaN, every JavaScript comparison on NaN is false, and the
returned sequence (here with scores `[NaN, 1]`) is not sorted by similarity
in descending order, refuting the unconditional ordering claim. -/
theorem search_not_sorted_with_nan :
    ¬ (((nanExampleStore.search (fun _ => some [(1:ℝ)]) ("q".toList) 3).map
      SearchResult.similarity).Pairwise JsNum.jsGe) := by
  have h0 : cosineSimilarity (some [(1:ℝ)]) (some [(0:ℝ)]) = JsNum.nan := by
    have hcs : cosineSimilarity (some [(1:ℝ)]) (some [(0:ℝ)]) =
        (JsNum.val 0).div (((JsNum.val 1).sqrt).mul ((JsNum.val 0).sqrt)) := by
      show (JsNum.val (0 + 1 * 0)).div
        (((JsNum.val (0 + 1 * 1)).sqrt).mul ((JsNum.val (0 + 0 * 0)).sqrt)) = _
      norm_num
    rw [hcs, sqrt_val_nonneg zero_le_one, sqrt_val_nonneg (le_refl 0),
      Real.sqrt_one, Real.sqrt_zero, mul_val_val, mul_zero]
    exact div_zero_zero
  have h1 : cosineSimilarity (some [(1:ℝ)]) (some [(1:ℝ)]) = JsNum.val 1 := by
    have hcs : cosineSimilarity (some [(1:ℝ)]) (some [(1:ℝ)]) =
        (JsNum.val 1).div (((JsNum.val 1).sqrt).mul ((JsNum.val 1).sqrt)) := by
      show (JsNum.val (0 + 1 * 1)).div
        (((JsNum.val (0 + 1 * 1)).sqrt).mul ((JsNum.val (0 + 1 * 1)).sqrt)) = _
      norm_num
    rw [hcs, sqrt_val_nonneg zero_le_one, Real.sqrt_one, mul_val_val, one_mul,
      div_val_val, if_neg one_ne_zero]
    norm_num
  have hrank : searchRanked nanExampleStore [(1:ℝ)] =
      [(⟨0, "p0".toList, (), some [0]⟩, JsNum.nan),
        (⟨1, "p1".toList, (), some [1]⟩, JsNum.val 1)] := by
    rw [searchRanked]
    simp only [nanExampleStore, List.map_cons, List.map_nil]
    rw [h0, h1]
    rfl
  have hsearch : (nanExampleStore.search (fun _ => some [(1:ℝ)]) ("q".toList) 3).map
      SearchResult.similarity = [JsNum.nan, JsNum.val 1] := by
    have hs : nanExampleStore.search (fun _ => some [(1:ℝ)]) ("q".toList) 3 =
        ((searchRanked nanExampleStore [(1:ℝ)]).take 3).map
          (fun p => ⟨p.1.text, p.1.metadata, p.2⟩) := by
      rw [VectorStore.search]
    rw [hs, hrank]
    rfl
  intro hcon
  rw [hsearch] at hcon
  exact (List.pairwise_cons.mp hcon).1 (JsNum.val 1) (List.mem_cons_self _ _)

end RagSystem
